import Mathlib

/-!
Verification of the placeholder-substitution engine and the Anritsu MS4644B
driver fragments of this repository.

The resolver (`replace_placeholders` in `pymeasure/experiment/results.py`) is
not part of the provided sources; only its test suite
(`tests/experiment/test_replace_placeholders.py`) is.  Its behaviour is
therefore modelled from the specification: a single left-to-right scan over
the template, token boundaries given by brace matching, the token text split
on the first colon into a name and an optional format spec, strict lookup of
the name in the parameter store, and rendering of the fetched value.

`AnritsuMS4644B.check_errors` and the `Port.power_level` declaration are in
`pymeasure/instruments/anritsu/anritsuMS4644B.py` and are embedded from that
source.
-/

/-- The opening brace character of a template token. -/
def lbrace : Char := Char.ofNat 123

/-- The closing brace character of a template token. -/
def rbrace : Char := Char.ofNat 125

/-- Modelled from the spec: a ParameterValue's typed value - one of string,
boolean, or floating-point number.  A float is modelled as a decimal number
`mantissa / 10 ^ fracDigits`, which represents exactly the decimal literals
exercised by the reference behaviour (e.g. `1.252 = pfloat 1252 3`). -/
inductive PValue where
  | pstr (s : String)
  | pbool (b : Bool)
  | pfloat (mantissa : Int) (fracDigits : Nat)
deriving DecidableEq, Repr

/-- Modelled from the spec: the ParameterStore collaborator, an explicit
registry mapping display names to typed value holders. -/
abbrev Store := List (String × PValue)

/-- Modelled from the spec: the store lookup keyed by display name
(case-sensitive, matched verbatim); first matching entry wins. -/
def lookupName (n : String) : Store → Option PValue
  | [] => none
  | (k, v) :: rest => if n = k then some v else lookupName n rest

/-- Decimal digits of `fp`, left-padded with zeros to `e` digits. -/
def decimalFrac (fp e : Nat) : List Char :=
  let ds := (toString fp).data
  List.replicate (e - ds.length) '0' ++ ds

/-- Modelled from the spec: default string representation of a value -
booleans render as the capitalized words True/False, floats in full-precision
default decimal representation, strings unmodified. -/
def defaultRepr : PValue → String
  | .pstr s => s
  | .pbool b => if b then "True" else "False"
  | .pfloat m e =>
    let n := m.natAbs
    let ip := n / 10 ^ e
    let fp := n % 10 ^ e
    let frac := ((decimalFrac fp e).reverse.dropWhile (fun c => c = '0')).reverse
    (if m < 0 then "-" else "") ++ toString ip ++ "." ++
      String.mk (if frac = [] then ['0'] else frac)

/-- Numeric value of a list of decimal digit characters. -/
def digitsVal (ds : List Char) : Nat :=
  ds.foldl (fun a c => a * 10 + (c.toNat - 48)) 0

/-- Modelled from the spec: recognize a fixed-point numeric format spec of the
form `.Nf`, yielding the precision `N`. -/
def parseFixedSpec (cs : List Char) : Option Nat :=
  match cs with
  | [] => none
  | c :: rest =>
    if c = '.' ∧ rest.getLast? = some 'f' ∧ rest.dropLast ≠ [] ∧
        rest.dropLast.all (fun d => d.isDigit)
    then some (digitsVal rest.dropLast) else none

/-- Modelled from the spec: fixed-point rendering of the decimal number
`m / 10 ^ e` with exactly `prec` digits after the point (rounding half away
from zero on the magnitude). -/
def fixedRepr (m : Int) (e : Nat) (prec : Nat) : String :=
  let n := m.natAbs
  let scaled := if e ≤ prec then n * 10 ^ (prec - e)
                else (n + 10 ^ (e - prec) / 2) / 10 ^ (e - prec)
  let ip := scaled / 10 ^ prec
  let fp := scaled % 10 ^ prec
  (if m < 0 then "-" else "") ++ toString ip ++
    (if prec = 0 then "" else "." ++ String.mk (decimalFrac fp prec))

/-- Modelled from the spec: render a fetched value under an optional format
spec.  With no spec the default representation is used; a `.Nf` spec on a
float applies fixed-point numeric formatting; for a spec that the model does
not recognize as compatible, the spec is ignored and the default rendering is
used (the choice the specification's open question explicitly allows). -/
def render (v : PValue) (spec : Option (List Char)) : String :=
  match spec with
  | none => defaultRepr v
  | some s =>
    match v with
    | .pfloat m e =>
      match parseFixedSpec s with
      | some prec => fixedRepr m e prec
      | none => defaultRepr v
    | _ => defaultRepr v

/-- Modelled from the spec: split the text of a token on the first colon into
the display name and the optional format spec. -/
def splitNameSpec : List Char → List Char × Option (List Char)
  | [] => ([], none)
  | c :: rest =>
    if c = ':' then ([], some rest)
    else
      let p := splitNameSpec rest
      (c :: p.1, p.2)

/-- Modelled from the spec: the single error kind of the resolver - an
UnresolvedPlaceholder / LookupError-class condition naming the display name
that matched no entry of the store. -/
inductive Err where
  | keyError (name : String)
deriving DecidableEq, Repr

/-- Modelled from the spec: the resolver's left-to-right scan.  The second
argument is `none` outside a token and `some acc` inside one, `acc` holding
the token text read so far in reverse.  An opening brace with no closing
brace after it is a literal brace passed through unchanged (best-effort). -/
def resolveAux (store : Store) : List Char → Option (List Char) → Except Err (List Char)
  | [], none => .ok []
  | [], some acc => .ok (lbrace :: acc.reverse)
  | c :: cs, none =>
    if c = lbrace then resolveAux store cs (some [])
    else
      match resolveAux store cs none with
      | .error e => .error e
      | .ok out => .ok (c :: out)
  | c :: cs, some acc =>
    if c = rbrace then
      let p := splitNameSpec acc.reverse
      match lookupName (String.mk p.1) store with
      | none => .error (Err.keyError (String.mk p.1))
      | some v =>
        match resolveAux store cs none with
        | .error e => .error e
        | .ok out => .ok ((render v p.2).data ++ out)
    else resolveAux store cs (some (c :: acc))

/-- Modelled from the spec: `replace_placeholders` / `resolve` - parse the
template, resolve every token against the store, and produce the fully
substituted string, or fail on the first unresolvable display name. -/
def resolve (t : String) (store : Store) : Except Err String :=
  match resolveAux store t.data none with
  | .error e => .error e
  | .ok out => .ok (String.mk out)

/-- Modelled from the spec: the tokens of a template, read by the same scan
as the resolver; each entry is the raw text between an opening brace and the
next closing brace. -/
def tokensAux : List Char → Option (List Char) → List (List Char)
  | [], _ => []
  | c :: cs, none =>
    if c = lbrace then tokensAux cs (some []) else tokensAux cs none
  | c :: cs, some acc =>
    if c = rbrace then acc.reverse :: tokensAux cs none
    else tokensAux cs (some (c :: acc))

/-- The tokens of a template string. -/
def tokens (t : String) : List (List Char) := tokensAux t.data none

/-- The example store of the reference test: String Parameter ↦ "test",
Boolean Parameter ↦ False, Float Parameter ↦ 1.252. -/
def exampleStore : Store :=
  [("String Parameter", PValue.pstr "test"),
   ("Boolean Parameter", PValue.pbool false),
   ("Float Parameter", PValue.pfloat 1252 3)]

/-- Unfolding lemma: the scan of an opening brace outside a token. -/
theorem resolveAux_open (store : Store) (cs : List Char) :
    resolveAux store (lbrace :: cs) none = resolveAux store cs (some []) := by
  simp [resolveAux]

/-- Unfolding lemma: the scan of a literal character outside a token. -/
theorem resolveAux_litChar (store : Store) {c : Char} (h : c ≠ lbrace) (cs : List Char) :
    resolveAux store (c :: cs) none =
      Except.map (fun out => c :: out) (resolveAux store cs none) := by
  cases hres : resolveAux store cs none <;> simp [resolveAux, h, hres, Except.map]

/-- Unfolding lemma: the scan of a non-closing character inside a token. -/
theorem resolveAux_accChar (store : Store) {c : Char} (h : c ≠ rbrace) (cs acc : List Char) :
    resolveAux store (c :: cs) (some acc) = resolveAux store cs (some (c :: acc)) := by
  simp [resolveAux, h]

/-- Unfolding lemma: the scan of the closing brace of a token. -/
theorem resolveAux_close (store : Store) (cs acc : List Char) :
    resolveAux store (rbrace :: cs) (some acc) =
      match lookupName (String.mk (splitNameSpec acc.reverse).1) store with
      | none => .error (Err.keyError (String.mk (splitNameSpec acc.reverse).1))
      | some v =>
        Except.map (fun out => (render v (splitNameSpec acc.reverse).2).data ++ out)
          (resolveAux store cs none) := by
  cases hl : lookupName (String.mk (splitNameSpec acc.reverse).1) store with
  | none => simp [resolveAux, hl]
  | some v =>
    cases hres : resolveAux store cs none <;> simp [resolveAux, hl, hres, Except.map]

/-- A brace-free literal segment passes through the scan unchanged, prepended
to whatever the rest of the template resolves to. -/
theorem resolveAux_lit (store : Store) :
    ∀ (lit : List Char), lbrace ∉ lit → ∀ (rest : List Char),
      resolveAux store (lit ++ rest) none =
        Except.map (fun out => lit ++ out) (resolveAux store rest none)
  | [], _, rest => by cases hres : resolveAux store rest none <;> simp [Except.map, hres]
  | c :: l, h, rest => by
    have hc : c ≠ lbrace := fun hc => h (hc ▸ List.mem_cons_self c l)
    have hl : lbrace ∉ l := fun hm => h (List.mem_cons_of_mem c hm)
    rw [List.cons_append, resolveAux_litChar store hc, resolveAux_lit store l hl rest]
    cases hres : resolveAux store rest none <;> simp [Except.map, hres]

/-- Inside a token, characters other than the closing brace are accumulated. -/
theorem resolveAux_accum (store : Store) :
    ∀ (mid : List Char), rbrace ∉ mid → ∀ (rest acc : List Char),
      resolveAux store (mid ++ rest) (some acc) =
        resolveAux store rest (some (mid.reverse ++ acc))
  | [], _, rest, acc => by simp
  | c :: l, h, rest, acc => by
    have hc : c ≠ rbrace := fun hc => h (hc ▸ List.mem_cons_self c l)
    have hl : rbrace ∉ l := fun hm => h (List.mem_cons_of_mem c hm)
    rw [List.cons_append, resolveAux_accChar store hc, resolveAux_accum store l hl rest (c :: acc)]
    simp

/-- Splitting a colon-free token text yields the whole text as the name and
no format spec. -/
theorem splitNameSpec_noColon :
    ∀ (n : List Char), (':' : Char) ∉ n → splitNameSpec n = (n, none)
  | [], _ => rfl
  | c :: l, h => by
    have hc : c ≠ ':' := fun hc => h (hc ▸ List.mem_cons_self c l)
    have hl : (':' : Char) ∉ l := fun hm => h (List.mem_cons_of_mem c hm)
    simp [splitNameSpec, hc, splitNameSpec_noColon l hl]

/-- Splitting token text around its first colon separates name and spec. -/
theorem splitNameSpec_colon :
    ∀ (n : List Char), (':' : Char) ∉ n → ∀ (s : List Char),
      splitNameSpec (n ++ ':' :: s) = (n, some s)
  | [], _, s => by simp [splitNameSpec]
  | c :: l, h, s => by
    have hc : c ≠ ':' := fun hc => h (hc ▸ List.mem_cons_self c l)
    have hl : (':' : Char) ∉ l := fun hm => h (List.mem_cons_of_mem c hm)
    simp [splitNameSpec, hc, splitNameSpec_colon l hl s]

/-- Structure eta for strings: rebuilding a string from its character data
gives the same string. -/
theorem string_mk_data (s : String) : String.mk s.data = s := rfl

/-- The character data of the one-character opening-brace string. -/
theorem lbrace_data : ("\x7b" : String).data = [lbrace] := by decide

/-- The character data of the one-character closing-brace string. -/
theorem rbrace_data : ("\x7d" : String).data = [rbrace] := by decide

/-- A complete spec-less token consumes its text, looks up the name, and
prepends the default rendering of the value found. -/
theorem resolveAux_token (store : Store) (n : List Char)
    (hrb : rbrace ∉ n) (hcn : (':' : Char) ∉ n) (v : PValue)
    (hv : lookupName (String.mk n) store = some v) (rest : List Char) :
    resolveAux store (lbrace :: (n ++ rbrace :: rest)) none =
      Except.map (fun out => (render v none).data ++ out) (resolveAux store rest none) := by
  rw [resolveAux_open, resolveAux_accum store n hrb (rbrace :: rest) [],
    List.append_nil, resolveAux_close]
  rw [List.reverse_reverse, splitNameSpec_noColon n hcn]
  rw [hv]

/-- A complete token with a format spec consumes its text, looks up the name,
and prepends the spec-directed rendering of the value found. -/
theorem resolveAux_token_spec (store : Store) (n s : List Char)
    (hrn : rbrace ∉ n) (hcn : (':' : Char) ∉ n) (hrs : rbrace ∉ s) (v : PValue)
    (hv : lookupName (String.mk n) store = some v) (rest : List Char) :
    resolveAux store (lbrace :: (n ++ ':' :: s ++ rbrace :: rest)) none =
      Except.map (fun out => (render v (some s)).data ++ out) (resolveAux store rest none) := by
  have hmid : rbrace ∉ n ++ ':' :: s := by
    intro hm
    rcases List.mem_append.mp hm with h | h
    · exact hrn h
    · rcases List.mem_cons.mp h with h | h
      · exact absurd h.symm (by decide)
      · exact hrs h
  rw [resolveAux_open, show n ++ ':' :: s ++ rbrace :: rest = (n ++ ':' :: s) ++ rbrace :: rest
      by simp, resolveAux_accum store (n ++ ':' :: s) hmid (rbrace :: rest) [],
    List.append_nil, resolveAux_close]
  rw [List.reverse_reverse, splitNameSpec_colon n hcn s]
  rw [hv]

/-- A template whose scan yields no tokens resolves to itself: outside a
token every character passes through, and an unterminated opening brace is
emitted literally together with the text after it. -/
theorem resolveAux_of_tokensAux_nil (store : Store) :
    ∀ (cs : List Char) (mode : Option (List Char)), tokensAux cs mode = [] →
      resolveAux store cs mode =
        .ok (match mode with | none => cs | some acc => lbrace :: (acc.reverse ++ cs))
  | [], none, _ => rfl
  | [], some acc, _ => by simp [resolveAux]
  | c :: cs, none, h => by
    by_cases hc : c = lbrace
    · subst hc
      have ht : tokensAux cs (some []) = [] := by simpa [tokensAux] using h
      have := resolveAux_of_tokensAux_nil store cs (some []) ht
      rw [resolveAux_open, this]
      simp
    · have ht : tokensAux cs none = [] := by simpa [tokensAux, hc] using h
      have := resolveAux_of_tokensAux_nil store cs none ht
      rw [resolveAux_litChar store hc, this]
      rfl
  | c :: cs, some acc, h => by
    by_cases hc : c = rbrace
    · subst hc
      simp [tokensAux] at h
    · have ht : tokensAux cs (some (c :: acc)) = [] := by simpa [tokensAux, hc] using h
      have := resolveAux_of_tokensAux_nil store cs (some (c :: acc)) ht
      rw [resolveAux_accChar store hc, this]
      simp

/-- A scan containing a token whose name has no entry in the store fails with
a lookup-class error for some unresolvable name; no output is produced. -/
theorem resolveAux_keyError (store : Store) :
    ∀ (cs : List Char) (mode : Option (List Char)),
      (∃ tok ∈ tokensAux cs mode,
          lookupName (String.mk (splitNameSpec tok).1) store = none) →
      ∃ n, lookupName n store = none ∧
        resolveAux store cs mode = .error (Err.keyError n)
  | [], mode, h => by
    exfalso
    rcases h with ⟨tok, hmem, _⟩
    cases mode <;> simp [tokensAux] at hmem
  | c :: cs, none, h => by
    by_cases hc : c = lbrace
    · subst hc
      have h' : ∃ tok ∈ tokensAux cs (some []),
          lookupName (String.mk (splitNameSpec tok).1) store = none := by
        simpa [tokensAux] using h
      obtain ⟨n, hn, herr⟩ := resolveAux_keyError store cs (some []) h'
      exact ⟨n, hn, by rw [resolveAux_open, herr]⟩
    · have h' : ∃ tok ∈ tokensAux cs none,
          lookupName (String.mk (splitNameSpec tok).1) store = none := by
        simpa [tokensAux, hc] using h
      obtain ⟨n, hn, herr⟩ := resolveAux_keyError store cs none h'
      exact ⟨n, hn, by rw [resolveAux_litChar store hc, herr]; rfl⟩
  | c :: cs, some acc, h => by
    by_cases hc : c = rbrace
    · subst hc
      cases hl : lookupName (String.mk (splitNameSpec acc.reverse).1) store with
      | none =>
        refine ⟨String.mk (splitNameSpec acc.reverse).1, hl, ?_⟩
        rw [resolveAux_close, hl]
      | some v =>
        have h' : ∃ tok ∈ tokensAux cs none,
            lookupName (String.mk (splitNameSpec tok).1) store = none := by
          rcases h with ⟨tok, hmem, htok⟩
          rcases List.mem_cons.mp (by simpa [tokensAux] using hmem) with heq | hmem'
          · rw [heq] at htok
            rw [htok] at hl
            exact absurd hl (by simp)
          · exact ⟨tok, hmem', htok⟩
        obtain ⟨n, hn, herr⟩ := resolveAux_keyError store cs none h'
        exact ⟨n, hn, by rw [resolveAux_close, hl, herr]; rfl⟩
    · have h' : ∃ tok ∈ tokensAux cs (some (c :: acc)),
          lookupName (String.mk (splitNameSpec tok).1) store = none := by
        simpa [tokensAux, hc] using h
      obtain ⟨n, hn, herr⟩ := resolveAux_keyError store cs (some (c :: acc)) h'
      exact ⟨n, hn, by rw [resolveAux_accChar store hc, herr]⟩

/-- The scan is determined by the lookup contents of the store: two stores
answering every lookup identically drive the scan to the same outcome. -/
theorem resolveAux_congr_store (s1 s2 : Store)
    (hs : ∀ n, lookupName n s1 = lookupName n s2) :
    ∀ (cs : List Char) (mode : Option (List Char)),
      resolveAux s1 cs mode = resolveAux s2 cs mode
  | [], none => rfl
  | [], some _ => rfl
  | c :: cs, none => by
    by_cases hc : c = lbrace
    · subst hc
      rw [resolveAux_open, resolveAux_open, resolveAux_congr_store s1 s2 hs cs (some [])]
    · rw [resolveAux_litChar s1 hc, resolveAux_litChar s2 hc,
        resolveAux_congr_store s1 s2 hs cs none]
  | c :: cs, some acc => by
    by_cases hc : c = rbrace
    · subst hc
      rw [resolveAux_close, resolveAux_close, hs,
        resolveAux_congr_store s1 s2 hs cs none]
    · rw [resolveAux_accChar s1 hc, resolveAux_accChar s2 hc,
        resolveAux_congr_store s1 s2 hs cs (some (c :: acc))]

/-- A template whose token scan is empty resolves to itself against any
store. -/
theorem resolve_of_tokens_nil (t : String) (store : Store) (h : tokens t = []) :
    resolve t store = .ok t := by
  have hres := resolveAux_of_tokensAux_nil store t.data none h
  unfold resolve
  rw [hres]

/-- A two-token template with brace-free literal segments resolves to the
literal segments with each token replaced in place by the default rendering
of its value, in original order. -/
theorem resolve_two_tokens (store : Store) (pre mid post n1 n2 : String)
    (v1 v2 : PValue)
    (hpre : lbrace ∉ pre.data) (hmid : lbrace ∉ mid.data) (hpost : lbrace ∉ post.data)
    (hr1 : rbrace ∉ n1.data) (hc1 : (':' : Char) ∉ n1.data)
    (hr2 : rbrace ∉ n2.data) (hc2 : (':' : Char) ∉ n2.data)
    (hv1 : lookupName n1 store = some v1) (hv2 : lookupName n2 store = some v2) :
    resolve (pre ++ "\x7b" ++ n1 ++ "\x7d" ++ mid ++ "\x7b" ++ n2 ++ "\x7d" ++ post) store
      = .ok (pre ++ render v1 none ++ mid ++ render v2 none ++ post) := by
  have hdata : (pre ++ "\x7b" ++ n1 ++ "\x7d" ++ mid ++ "\x7b" ++ n2 ++ "\x7d" ++ post).data
      = pre.data ++ (lbrace :: (n1.data ++ rbrace ::
          (mid.data ++ (lbrace :: (n2.data ++ rbrace :: post.data))))) := by
    simp [String.data_append]; decide
  have hpost' : resolveAux store post.data none =
      Except.map (fun out => post.data ++ out) (resolveAux store [] none) := by
    have := resolveAux_lit store post.data hpost []
    simpa using this
  unfold resolve
  rw [hdata, resolveAux_lit store pre.data hpre,
    resolveAux_token store n1.data hr1 hc1 v1 (by rw [string_mk_data]; exact hv1),
    resolveAux_lit store mid.data hmid,
    resolveAux_token store n2.data hr2 hc2 v2 (by rw [string_mk_data]; exact hv2),
    hpost']
  show Except.ok (String.mk _) = _
  refine congrArg Except.ok (String.ext ?_)
  simp [String.data_append]

/-- C1: tokens without a format spec render by the default representation:
`resolve "{String Parameter}"` gives "test", `resolve "{Boolean Parameter}"`
gives "False", and the three-token template gives "test_1.252_False". -/
theorem c1_default_representation :
    resolve "\x7bString Parameter\x7d" exampleStore = .ok "test" ∧
    resolve "\x7bBoolean Parameter\x7d" exampleStore = .ok "False" ∧
    resolve "\x7bString Parameter\x7d_\x7bFloat Parameter\x7d_\x7bBoolean Parameter\x7d"
      exampleStore = .ok "test_1.252_False" := by
  refine ⟨rfl, rfl, rfl⟩

/-- C2: a template containing a token whose display name matches no entry of
the store fails as a whole with the LookupError-class (keyError) condition
for some unresolvable name; no partial or best-effort output is produced. -/
theorem c2_unresolved_placeholder (t : String) (store : Store)
    (h : ∃ tok ∈ tokens t, lookupName (String.mk (splitNameSpec tok).1) store = none) :
    ∃ n, lookupName n store = none ∧ resolve t store = .error (Err.keyError n) := by
  obtain ⟨n, hn, herr⟩ := resolveAux_keyError store t.data none h
  refine ⟨n, hn, ?_⟩
  unfold resolve
  rw [herr]

/-- Witness for C2 at the reference test input: "{Unknown Parameter}" against
the example store fails with a keyError. -/
theorem c2_unresolved_placeholder_witness :
    (∃ tok ∈ tokens "\x7bUnknown Parameter\x7d",
        lookupName (String.mk (splitNameSpec tok).1) exampleStore = none) ∧
    ∃ n, lookupName n exampleStore = none ∧
      resolve "\x7bUnknown Parameter\x7d" exampleStore = .error (Err.keyError n) :=
  ⟨by decide, c2_unresolved_placeholder _ _ (by decide)⟩

/-- C3: a token carrying a format spec (the token text split on the first
colon into name and spec) renders the fetched value using that spec; in
particular "{Float Parameter:.2f}" renders 1.252 as "1.25". -/
theorem c3_format_spec (store : Store) (n s : String) (v : PValue)
    (hrn : rbrace ∉ n.data) (hcn : (':' : Char) ∉ n.data) (hrs : rbrace ∉ s.data)
    (hv : lookupName n store = some v) :
    resolve ("\x7b" ++ n ++ ":" ++ s ++ "\x7d") store = .ok (render v (some s.data)) := by
  have hdata : ("\x7b" ++ n ++ ":" ++ s ++ "\x7d").data
      = lbrace :: (n.data ++ ':' :: s.data ++ rbrace :: ([] : List Char)) := by
    simp [String.data_append]; decide
  unfold resolve
  rw [hdata, resolveAux_token_spec store n.data s.data hrn hcn hrs v
    (by rw [string_mk_data]; exact hv)]
  show Except.ok (String.mk _) = _
  refine congrArg Except.ok (String.ext ?_)
  simp

/-- Witness for C3 at the reference test input: the example store renders the
float parameter 1.252 under the ".2f" spec as "1.25". -/
theorem c3_format_spec_witness :
    resolve "\x7bFloat Parameter:.2f\x7d" exampleStore = .ok "1.25" :=
  c3_format_spec exampleStore "Float Parameter" ".2f" (PValue.pfloat 1252 3)
    (by decide) (by decide) (by decide) (by decide)

/-- C4: a template with no tokens resolves to itself against any store - on
token-free templates the resolver is the identity, independent of the
store. -/
theorem c4_no_tokens_identity (t : String) (store : Store) (h : tokens t = []) :
    resolve t store = .ok t :=
  resolve_of_tokens_nil t store h

/-- Witness for C4: a token-free template is returned unchanged. -/
theorem c4_no_tokens_identity_witness :
    tokens "DATA_file-1.csv" = [] ∧
    resolve "DATA_file-1.csv" exampleStore = .ok "DATA_file-1.csv" :=
  ⟨by decide, c4_no_tokens_identity _ exampleStore (by decide)⟩

/-- C5: in a template with two tokens, the substituted values appear in the
output in the tokens' relative order, each token is replaced in place, and
all literal characters are preserved verbatim in their original order. -/
theorem c5_order_preservation (store : Store) (pre mid post n1 n2 : String)
    (v1 v2 : PValue)
    (hpre : lbrace ∉ pre.data) (hmid : lbrace ∉ mid.data) (hpost : lbrace ∉ post.data)
    (hr1 : rbrace ∉ n1.data) (hc1 : (':' : Char) ∉ n1.data)
    (hr2 : rbrace ∉ n2.data) (hc2 : (':' : Char) ∉ n2.data)
    (hv1 : lookupName n1 store = some v1) (hv2 : lookupName n2 store = some v2) :
    resolve (pre ++ "\x7b" ++ n1 ++ "\x7d" ++ mid ++ "\x7b" ++ n2 ++ "\x7d" ++ post) store
      = .ok (pre ++ render v1 none ++ mid ++ render v2 none ++ post) :=
  resolve_two_tokens store pre mid post n1 n2 v1 v2 hpre hmid hpost hr1 hc1 hr2 hc2 hv1 hv2

/-- Witness for C5 at the reference test shape: the two-token template with
literal separators substitutes in order, preserving the literals. -/
theorem c5_order_preservation_witness :
    resolve ("A_" ++ "\x7b" ++ "String Parameter" ++ "\x7d" ++ "_B_" ++ "\x7b" ++
        "Float Parameter" ++ "\x7d" ++ "_C") exampleStore
      = .ok "A_test_B_1.252_C" :=
  c5_order_preservation exampleStore "A_" "_B_" "_C" "String Parameter" "Float Parameter"
    (PValue.pstr "test") (PValue.pfloat 1252 3) (by decide) (by decide) (by decide)
    (by decide) (by decide) (by decide) (by decide) (by decide) (by decide)

/-- C6: a template referencing the same display name in two tokens
substitutes the same value at both occurrences within one resolution. -/
theorem c6_repetition (store : Store) (pre mid post n : String) (v : PValue)
    (hpre : lbrace ∉ pre.data) (hmid : lbrace ∉ mid.data) (hpost : lbrace ∉ post.data)
    (hr : rbrace ∉ n.data) (hc : (':' : Char) ∉ n.data)
    (hv : lookupName n store = some v) :
    resolve (pre ++ "\x7b" ++ n ++ "\x7d" ++ mid ++ "\x7b" ++ n ++ "\x7d" ++ post) store
      = .ok (pre ++ render v none ++ mid ++ render v none ++ post) :=
  resolve_two_tokens store pre mid post n n v v hpre hmid hpost hr hc hr hc hv hv

/-- Witness for C6: the same display name twice yields the same value at both
places. -/
theorem c6_repetition_witness :
    resolve ("" ++ "\x7b" ++ "Float Parameter" ++ "\x7d" ++ "_" ++ "\x7b" ++
        "Float Parameter" ++ "\x7d" ++ "") exampleStore
      = .ok "1.252_1.252" :=
  c6_repetition exampleStore "" "_" "" "Float Parameter" (PValue.pfloat 1252 3)
    (by decide) (by decide) (by decide) (by decide) (by decide) (by decide)

/-- C7: resolution is a pure function of the template and the store's lookup
contents: two stores answering every display-name lookup identically give
equal results; the embedding is a function with no mutation by
construction. -/
theorem c7_pure_function (t : String) (s1 s2 : Store)
    (hs : ∀ n, lookupName n s1 = lookupName n s2) :
    resolve t s1 = resolve t s2 := by
  unfold resolve
  rw [resolveAux_congr_store s1 s2 hs t.data none]

/-- Witness for C7: the example store and the example store extended with a
shadowed duplicate entry answer all lookups identically, so resolution
agrees on them. -/
theorem c7_pure_function_witness :
    resolve "\x7bString Parameter\x7d_\x7bFloat Parameter\x7d" exampleStore =
      resolve "\x7bString Parameter\x7d_\x7bFloat Parameter\x7d"
        (exampleStore ++ [("String Parameter", PValue.pstr "shadowed")]) :=
  c7_pure_function _ _ _ (by
    intro n
    simp only [exampleStore, List.cons_append, List.nil_append, lookupName]
    split_ifs <;> rfl)

/-- C8: literal braces that form no token are passed through to the output
unchanged and the resolver does not fail on such templates. -/
theorem c8_literal_braces (t : String) (store : Store) (h1 : tokens t = [])
    (_h2 : lbrace ∈ t.data ∨ rbrace ∈ t.data) :
    resolve t store = .ok t :=
  resolve_of_tokens_nil t store h1

/-- Witness for C8: a template with a bare closing brace and an unterminated
opening brace is returned unchanged. -/
theorem c8_literal_braces_witness :
    tokens "a\x7db\x7bc" = [] ∧
    (lbrace ∈ ("a\x7db\x7bc" : String).data ∨ rbrace ∈ ("a\x7db\x7bc" : String).data) ∧
    resolve "a\x7db\x7bc" exampleStore = .ok "a\x7db\x7bc" :=
  ⟨by decide, by decide, c8_literal_braces _ exampleStore (by decide) (by decide)⟩

/-- Embedded from `AnritsuMS4644B.check_errors` (anritsuMS4644B.py): one
response of the repeated `SYST:ERR?` query; `head` is `err[0]`, the first
element of the list returned by `self.values`, and `rest` the remaining
elements. -/
structure ErrResponse where
  head : String
  rest : List String
deriving DecidableEq, Repr

/-- Embedded from `AnritsuMS4644B.check_errors` (anritsuMS4644B.py): the
error-draining loop.  Each iteration consumes the next response of the
supplied stream; a response whose first element differs from "No Error" is
appended to the returned error list, and the first "No Error" response breaks
the loop.  `none` models a stream exhausted before any "No Error" response,
where the Python loop would keep querying. -/
def check_errors : List ErrResponse → Option (List ErrResponse)
  | [] => none
  | r :: rs =>
    if r.head ≠ "No Error" then
      match check_errors rs with
      | none => none
      | some errs => some (r :: errs)
    else some []

/-- C9: when some queried response reports "No Error", check_errors
terminates and returns exactly the responses read before the first "No
Error" response, in query order, never including that terminating
response. -/
theorem c9_check_errors_drain (rs : List ErrResponse)
    (h : ∃ r ∈ rs, r.head = "No Error") :
    check_errors rs = some (rs.takeWhile (fun r => r.head != "No Error")) := by
  induction rs with
  | nil => simp at h
  | cons r rs ih =>
    by_cases hr : r.head = "No Error"
    · simp [check_errors, hr, List.takeWhile_cons]
    · have h' : ∃ x ∈ rs, x.head = "No Error" := by
        rcases h with ⟨x, hx, hxh⟩
        rcases List.mem_cons.mp hx with heq | hmem
        · exact absurd (heq ▸ hxh) hr
        · exact ⟨x, hmem, hxh⟩
      simp [check_errors, hr, List.takeWhile_cons, ih h']

/-- Witness for C9: a stream with one error, the terminating "No Error"
response, and a later entry returns exactly the single leading error. -/
theorem c9_check_errors_drain_witness :
    check_errors [⟨"Instrument error", ["-100"]⟩, ⟨"No Error", []⟩, ⟨"Stale entry", []⟩]
      = some [⟨"Instrument error", ["-100"]⟩] :=
  (c9_check_errors_drain _ (by decide)).trans (by decide)

/-- Embedded from the source: the declared power_level range `[-3E1, 3E1]`
(in dBm), as exact rationals. -/
def power_level_values : List ℚ := [-30, 30]

/-- One SCPI set-command write: the command template of the property and the
channel, port and numeric argument filled into it. -/
structure ScpiWrite where
  template : String
  ch : Nat
  pt : Nat
  arg : ℚ
deriving DecidableEq, Repr

/-- Modelled from the spec: the `strict_range` validator of
`pymeasure.instruments.validators` (not under src/; only its import and use
are).  It returns the value when it lies between the minimum and the maximum
of the declared values and raises a ValueError otherwise. -/
def strict_range (value : ℚ) (values : List ℚ) : Except String ℚ :=
  match values with
  | [] => .error "min() arg is an empty sequence"
  | v :: vs =>
    if vs.foldl min v ≤ value ∧ value ≤ vs.foldl max v then .ok value
    else .error "ValueError: value not in range"

/-- Modelled from the spec: the `Channel.control` setter pipeline (not under
src/; only the `Port.power_level` declaration is) for `Port.power_level`:
the value is validated by `strict_range` against the declared range first,
and only then is the `:SOUR{ch}:POW:PORT{pt} %g` set command appended to the
adapter's write trace; a validation error propagates before any write, so the
trace gains no command. -/
def set_power_level (ch pt : Nat) (value : ℚ) (written : List ScpiWrite) :
    Except String (List ScpiWrite) :=
  match strict_range value power_level_values with
  | .error e => .error e
  | .ok v => .ok (written ++ [⟨":SOUR\x7b\x7bch\x7d\x7d:POW:PORT\x7bpt\x7d %g", ch, pt, v⟩])

/-- C10: setting power_level to a value outside [-30, 30] fails in the
strict_range validator before any SCPI command is formed - the write trace
gains no command - while a value inside the range appends exactly the set
command carrying that value. -/
theorem c10_power_level_range (ch pt : Nat) (value : ℚ) (written : List ScpiWrite) :
    ((value < -30 ∨ 30 < value) →
      set_power_level ch pt value written = .error "ValueError: value not in range") ∧
    (-30 ≤ value → value ≤ 30 →
      set_power_level ch pt value written =
        .ok (written ++ [⟨":SOUR\x7b\x7bch\x7d\x7d:POW:PORT\x7bpt\x7d %g", ch, pt, value⟩])) := by
  have hmin : ([(30 : ℚ)].foldl min (-30)) = -30 := by
    simp [List.foldl]
  have hmax : ([(30 : ℚ)].foldl max (-30)) = 30 := by
    simp [List.foldl]
  constructor
  · intro h
    have hcond : ¬((-30 : ℚ) ≤ value ∧ value ≤ 30) := by
      rcases h with h | h <;> intro hc <;> rcases hc with ⟨h1, h2⟩ <;> linarith
    simp [set_power_level, strict_range, power_level_values, hmin, hmax, hcond]
  · intro h1 h2
    simp [set_power_level, strict_range, power_level_values, hmin, hmax, h1, h2]

/-- Witness for C10: the out-of-range value 31 dBm is rejected with no
command written, and the in-range value 10 dBm writes exactly the set
command with 10 as its argument. -/
theorem c10_power_level_range_witness :
    set_power_level 1 2 31 [] = .error "ValueError: value not in range" ∧
    set_power_level 1 2 10 [] =
      .ok [⟨":SOUR\x7b\x7bch\x7d\x7d:POW:PORT\x7bpt\x7d %g", 1, 2, 10⟩] :=
  ⟨(c10_power_level_range 1 2 31 []).1 (Or.inr (by norm_num)),
   (c10_power_level_range 1 2 10 []).2 (by norm_num) (by norm_num)⟩
